import Mathlib

set_option maxRecDepth 8000

/-!
Verification development for the LIQpgobblerr transaction orchestration and
retry engine.  The definitions below are a shallow embedding of the TypeScript
sources: `src/src/db.ts` (ledger contract), `src/src/nonce.ts` (network
submitter), and `src/src/auto-trader.ts` (inbound monitor, workflow engine and
scheduler).  External collaborators (RPC node, Jupiter quote API, Meteora
builders, MySQL) are modelled as explicit oracle inputs; the control flow of
each embedded function mirrors the corresponding source function line by line.
-/

namespace LiqGobbler

/-- The fixed workflow step order: the `currentStep` column enum declared in
`src/src/db.ts` (mysqlEnum, in declaration order, terminal marker last). -/
inductive Step where
  | check_pool
  | swap_proof
  | swap_trending
  | swap_rfreestacc
  | swap_leading
  | add_liquidity
  | burn_tokens
  | transfer_lp
  | create_pool
  | lock_lp
  | transfer_nft
  | done
  deriving DecidableEq, Repr

/-- Position of a step in the fixed order (enum declaration order). -/
def stepIndex : Step → Nat
  | .check_pool => 0
  | .swap_proof => 1
  | .swap_trending => 2
  | .swap_rfreestacc => 3
  | .swap_leading => 4
  | .add_liquidity => 5
  | .burn_tokens => 6
  | .transfer_lp => 7
  | .create_pool => 8
  | .lock_lp => 9
  | .transfer_nft => 10
  | .done => 11

/-- The `status` column enum of the `processed_incoming` table. -/
inductive Status where
  | pending
  | processing
  | completed
  | failed
  deriving DecidableEq, Repr

/-- The ledger record fields that the retry contract and the workflow touch
(`processed_incoming` table, `src/src/db.ts`).  Timestamps are integer epoch
milliseconds. -/
structure DbRec where
  incomingSignature : String
  senderAddress : String
  amountLamports : Int
  retryCount : Nat
  status : Status
  errorMessage : Option String
  lastRetryAt : Option Int
  nextRetryAt : Option Int
  completedAt : Option Int
  createdAt : Int
  currentStep : Step
  deriving DecidableEq

/-- `min(newRetryCount * 60000, 300000)`: the capped linear backoff delay of
`markForRetry` (`src/src/db.ts` line 134). -/
def retryDelay (n : Nat) : Int := min ((n : Int) * 60000) 300000

/-- `markForRetry` (`src/src/db.ts` lines 126-145) as a pure record
transition: increment the retry counter, set status to `failed` once the
counter has reached 5 and to `processing` (the retry-pending state) otherwise,
persist the error text, and recompute `nextRetryAt` by capped linear backoff. -/
def markForRetry (r : DbRec) (now : Int) (err : String) : DbRec :=
  let newRetryCount := r.retryCount + 1
  { r with
    retryCount := newRetryCount
    status := if 5 ≤ newRetryCount then Status.failed else Status.processing
    errorMessage := some err
    lastRetryAt := some now
    nextRetryAt := some (now + retryDelay newRetryCount) }

/-- A freshly inserted record (`insertProcessedIncoming` with
`status = processing`; `currentStep` and `retryCount` take their column
defaults `check_pool` and 0). -/
def freshRec : DbRec :=
  { incomingSignature := ""
    senderAddress := ""
    amountLamports := 0
    createdAt := 0
    retryCount := 0
    status := Status.processing
    errorMessage := none
    lastRetryAt := none
    nextRetryAt := none
    completedAt := none
    currentStep := Step.check_pool }

/-- `n` successive `markForRetry` calls applied to a fresh record. -/
def iterRetry : Nat → DbRec
  | 0 => freshRec
  | n + 1 => markForRetry (iterRetry n) (n : Int) "step failed"

/-- `String.includes` of the source, on character lists. -/
def strContains (s pat : String) : Bool := decide (List.IsInfix pat.toList s.toList)

/-- `String.toLowerCase` of the source. -/
def strLower (s : String) : String := String.mk (s.toList.map Char.toLower)

/-- The polled signature status (`connection.getSignatureStatus`):
`nullValue` is `status.value == null`; `errStatus e` is `status.value.err`
present (stringified); `confirmedOk` is no error with confirmation status
`confirmed`/`finalized`; `pendingOk` is a present value with no error that is
not yet confirmed. -/
inductive PollStatus where
  | nullValue
  | errStatus (err : String)
  | confirmedOk
  | pendingOk
  deriving DecidableEq, Repr

/-- Oracle outcome of one loop attempt of `submitWithExponentialBackoff`:
either `sendRawTransaction` returned a signature and the follow-up poll gave
`st`, or it threw `msg` (in which case `lastStatus` is what a poll of the
previously returned signature would report, consulted only by the
already-processed branch). -/
inductive SendOutcome where
  | sent (sig : String) (st : PollStatus)
  | threw (msg : String) (lastStatus : PollStatus)
  deriving DecidableEq, Repr

/-- Result record of `submitWithExponentialBackoff`. -/
structure BackoffResult where
  success : Bool
  signature : Option String
  error : Option String
  attempts : Nat
  deriving DecidableEq, Repr

/-- Mutable loop state of `submitWithExponentialBackoff`.  Delays are exact
rationals: in the source the delay is a binary64 float evolving as
`delay = min(delay * 1.5, maxDelayMs)` from 500, and every reachable value is
exactly representable, so ℚ models it faithfully. -/
structure BackoffState where
  delay : ℚ
  attempts : Nat
  lastSignature : Option String
  lastError : Option String
  deriving DecidableEq, Repr

/-- One loop-body classification (`src/src/nonce.ts` lines 239-323), with
`attempts` already incremented. -/
inductive StepRes where
  | finished (r : BackoffResult)
  | again (st : BackoffState)
  deriving DecidableEq, Repr

/-- The result returned when the `while (attempts < maxRetries)` loop exits
(`src/src/nonce.ts` lines 331-337). -/
def exhaustResult (st : BackoffState) : BackoffResult :=
  ⟨false, st.lastSignature, some (st.lastError.getD "Max retries exceeded"), st.attempts⟩

/-- Loop body of `submitWithExponentialBackoff`: classify the attempt outcome
and either return or fall through to the backoff delay update
`delay = min(delay * 1.5, maxDelayMs)`. -/
def backoffStep (maxDelayMs : ℚ) (o : SendOutcome) (st : BackoffState) : StepRes :=
  match o with
  | .sent sig ps =>
    match ps with
    | .errStatus e =>
      if strContains (strLower e) "insufficient" || strContains (strLower e) "already processed" then
        .finished ⟨false, some sig, some e, st.attempts⟩
      else
        .again ⟨min (st.delay * (3 / 2)) maxDelayMs, st.attempts, some sig, some e⟩
    | .confirmedOk => .finished ⟨true, some sig, none, st.attempts⟩
    | .nullValue | .pendingOk =>
        .again ⟨min (st.delay * (3 / 2)) maxDelayMs, st.attempts, some sig, st.lastError⟩
  | .threw msg pollLast =>
    if strContains msg "Blockhash not found" || strContains msg "block height exceeded" then
      .finished ⟨false, st.lastSignature, some "Blockhash expired - transaction cannot land", st.attempts⟩
    else if (strContains msg "AlreadyProcessed" || strContains msg "already been processed")
        && st.lastSignature.isSome
        && (pollLast matches .confirmedOk | .pendingOk) then
      .finished ⟨true, st.lastSignature, none, st.attempts⟩
    else
      .again ⟨min (st.delay * (3 / 2)) maxDelayMs, st.attempts, st.lastSignature, some msg⟩

/-- The retry loop of `submitWithExponentialBackoff` over the oracle's
per-attempt outcomes; also returns the list of backoff sleeps performed. -/
def backoffRun (maxRetries : Nat) (maxDelayMs : ℚ) :
    List SendOutcome → BackoffState → BackoffResult × List ℚ
  | [], st => (exhaustResult st, [])
  | o :: rest, st =>
    if maxRetries ≤ st.attempts then (exhaustResult st, [])
    else
      match backoffStep maxDelayMs o { st with attempts := st.attempts + 1 } with
      | .finished r => (r, [])
      | .again st2 =>
        let p := backoffRun maxRetries maxDelayMs rest st2
        (p.1, st.delay :: p.2)

/-- `submitWithExponentialBackoff` (`src/src/nonce.ts` lines 220-337). -/
def submitWithExponentialBackoff (outs : List SendOutcome)
    (maxRetries : Nat) (initialDelayMs maxDelayMs : ℚ) :
    BackoffResult × List ℚ :=
  backoffRun maxRetries maxDelayMs outs ⟨initialDelayMs, 0, none, none⟩

/-- The canonical delay sequence `d 0 = d0`, `d (n+1) = min (d n * 1.5) mx`. -/
def delaySeq (mx d0 : ℚ) : Nat → ℚ
  | 0 => d0
  | n + 1 => min (delaySeq mx d0 n * (3 / 2)) mx

/-- Result record of `submitSequentialTransactions`. -/
structure SeqSubmitOut where
  success : Bool
  signatures : List String
  failedIndex : Option Nat
  error : Option String
  deriving DecidableEq, Repr

/-- Loop of `submitSequentialTransactions`: each list entry is the
`BackoffResult` that submitting the corresponding payload would produce; `i`
is the current 0-based index and `acc` the confirmed signatures (reversed).
The second component counts payloads actually handed to the submitter. -/
def seqGo : List BackoffResult → Nat → List String → SeqSubmitOut × Nat
  | [], i, acc => (⟨true, acc.reverse, none, none⟩, i)
  | r :: rest, i, acc =>
    if r.success && r.signature.isSome then
      seqGo rest (i + 1) (r.signature.getD "" :: acc)
    else
      (⟨false, acc.reverse, some i,
        some ("Transaction " ++ toString (i + 1) ++ " failed: " ++ r.error.getD "null")⟩,
       i + 1)

/-- `submitSequentialTransactions` (`src/src/nonce.ts` lines 343-386). -/
def submitSequentialTransactions (results : List BackoffResult) : SeqSubmitOut × Nat :=
  seqGo results 0 []

/-- The confirmed signature a payload's submission result contributes. -/
def sigOf (r : BackoffResult) : String := r.signature.getD ""

/-- Transaction meta as consumed by the monitor: pre/post lamport balances and
the account keys of the message (after the static/legacy key extraction).  In
a well-formed feed the three lists have equal length. -/
structure TxMeta where
  preBalances : List Int
  postBalances : List Int
  accountKeys : List String
  deriving DecidableEq, Repr

/-- One entry of `getSignaturesForAddress`. -/
structure SigInfo where
  signature : String
  slot : Nat
  blockTime : Option Nat
  deriving DecidableEq, Repr

/-- A signature together with its fetched transaction; `meta = none` models
`!tx || !tx.meta`. -/
structure FetchedTx where
  info : SigInfo
  meta : Option TxMeta
  deriving DecidableEq, Repr

/-- The `IncomingTransaction` record emitted by the monitor. -/
structure IncomingTransaction where
  signature : String
  sender : String
  amount : Int
  slot : Nat
  blockTime : Nat
  deriving DecidableEq, Repr

/-- `MIN_SOL_LAMPORTS` (0.01 SOL). -/
def MIN_SOL_LAMPORTS : Int := 10000000

/-- `postBalances[i] - preBalances[i]`. -/
def balanceDelta (m : TxMeta) (i : Nat) : Int :=
  m.postBalances.getD i 0 - m.preBalances.getD i 0

/-- The sender scan: the first account other than ours whose balance
decreased, taken as `accountKeys[i]?.toBase58() || ''` (empty when no such
account exists or its key is missing). -/
def monitorSender (m : TxMeta) (ourIdx : Nat) : String :=
  match (List.range m.accountKeys.length).find?
      (fun i => decide (i ≠ ourIdx) && decide (balanceDelta m i < 0)) with
  | some i => m.accountKeys.getD i ""
  | none => ""

/-- The per-signature body of the monitor loop: returns the emitted transfer
(if any) and the updated in-memory `processedSignatures` set. -/
def processSig (wallet : String) (dbProcessed : String → Bool)
    (seen : List String) (ft : FetchedTx) :
    Option IncomingTransaction × List String :=
  if seen.contains ft.info.signature then (none, seen)
  else if dbProcessed ft.info.signature then (none, ft.info.signature :: seen)
  else
    match ft.meta with
    | none => (none, seen)
    | some m =>
      if m.accountKeys.length = 0 then (none, seen)
      else
        match m.accountKeys.findIdx? (fun k => k == wallet) with
        | none => (none, seen)
        | some ourIdx =>
          let balanceChange := balanceDelta m ourIdx
          if MIN_SOL_LAMPORTS ≤ balanceChange then
            let sender := monitorSender m ourIdx
            if sender ≠ "" then
              (some ⟨ft.info.signature, sender, balanceChange, ft.info.slot,
                  ft.info.blockTime.getD 0⟩,
                ft.info.signature :: seen)
            else (none, seen)
          else (none, ft.info.signature :: seen)

/-- `checkForIncomingTransactions`: fold the per-signature body over the
fetched batch, accumulating emitted transfers in order. -/
def checkForIncomingTransactions (wallet : String) (dbProcessed : String → Bool)
    (txs : List FetchedTx) (seen0 : List String) :
    List IncomingTransaction × List String :=
  txs.foldl
    (fun st ft =>
      match processSig wallet dbProcessed st.2 ft with
      | (some t, seen) => (st.1 ++ [t], seen)
      | (none, seen) => (st.1, seen))
    ([], seen0)

/-- `isTransactionProcessed` (`src/src/db.ts` lines 66-73): the store is an
optional handle; with no handle the check answers `false`, otherwise it is a
point lookup on `incomingSignature`. -/
def isTransactionProcessed (db : Option (List String)) (sig : String) : Bool :=
  match db with
  | none => false
  | some rows => rows.contains sig

/-- Stable insertion by ascending `createdAt` (the `orderBy asc` of the retry
query). -/
def insertByCreatedAt (r : DbRec) : List DbRec → List DbRec
  | [] => [r]
  | x :: xs =>
    if x.createdAt ≤ r.createdAt then x :: insertByCreatedAt r xs
    else r :: x :: xs

/-- `getTransactionsForRetry` (`src/src/db.ts` lines 150-165): with no store
handle the query answers the empty list; otherwise records with
`status = processing` and elapsed or unset `nextRetryAt`, oldest first,
limited. -/
def getTransactionsForRetry (db : Option (List DbRec)) (now : Int) (lim : Nat) :
    List DbRec :=
  match db with
  | none => []
  | some rows =>
    ((rows.filter fun r =>
        r.status == Status.processing &&
          (r.nextRetryAt.isNone || decide (r.nextRetryAt.getD 0 ≤ now))).foldl
      (fun acc r => insertByCreatedAt r acc) []).take lim

/-- `PROOF_V3_MINT`. -/
def PROOF_V3_MINT : String := "CLWeikxiw8pC9JEtZt14fqDzYfXF7uVwLuvnJPkrE7av"

/-- The trending-token oracle answer (address and symbol). -/
structure TrendingToken where
  address : String
  symbol : String
  deriving DecidableEq, Repr

/-- Outcome of the `insertProcessedIncoming` call that opens
`processIncomingTransaction` (before the `try` block): the row is inserted;
or the insert is rejected by the unique `incomingSignature` constraint (the
record already exists and the store is reachable), which throws out of the
function; or the store handle is unavailable and the insert is skipped with a
warning. -/
inductive InsertOutcome where
  | ok
  | dupThrow
  | skipNoDb
  deriving DecidableEq, Repr

/-- Oracle environment for one `processIncomingTransaction` run: outcomes of
every external call, in source order. -/
structure WorkflowEnv where
  walletAvailable : Bool
  insertOutcome : InsertOutcome
  trendingToken : Option TrendingToken
  poolExists : Bool
  solBalance : Int
  proofQuoteOk : Bool
  proofBuildOk : Bool
  proofSendOk : Bool
  trendingQuoteOk : Bool
  trendingBuildOk : Bool
  trendingSendOk : Bool
  proofTokenBalance : Int
  trendingTokenBalance : Int
  atomicBuildOk : Bool
  atomicSubmitOk : Bool
  deriving DecidableEq, Repr

/-- Observable actions of one `processIncomingTransaction` run: the opening
insert, `currentStep` writes, quote/build/submit invocations of each step,
per-step signature persistence, the terminal completed update, and
`markForRetry` calls. -/
inductive WfEvent where
  | insertAttempt
  | stepWrite (s : Step)
  | quoteCall (s : Step)
  | buildCall (s : Step)
  | submitCall (s : Step)
  | sigWrite (s : Step)
  | completedWrite
  | markRetry (e : String)
  deriving DecidableEq, Repr

/-- Whether the run returned normally or threw past the function boundary. -/
inductive WfOutcome where
  | returned
  | threw
  deriving DecidableEq, Repr

/-- `processIncomingTransaction` as an event trace plus outcome.  Failures
raised inside the `try` block are caught by the closing `catch`, which calls
`markForRetry`; the opening insert sits before the `try`, so its
duplicate-key rejection escapes the function. -/
def runWorkflow (env : WorkflowEnv) : List WfEvent × WfOutcome :=
  if ¬env.walletAvailable then ([], WfOutcome.returned)
  else if env.insertOutcome = InsertOutcome.dupThrow then
    ([WfEvent.insertAttempt], WfOutcome.threw)
  else
    let t0 := [WfEvent.insertAttempt]
    match env.trendingToken with
    | none =>
      (t0 ++ [WfEvent.markRetry "No trending token available from Birdeye"],
        WfOutcome.returned)
    | some tok =>
      if tok.address = PROOF_V3_MINT then
        (t0 ++ [WfEvent.markRetry "Trending token is same as PROOF V3"],
          WfOutcome.returned)
      else
        let poolCreationReserve : Int := if env.poolExists then 0 else 30000000
        let availableForSwaps := env.solBalance - poolCreationReserve - 5000000
        if availableForSwaps < 1000000 then
          (t0 ++ [WfEvent.markRetry "Insufficient SOL for swaps"], WfOutcome.returned)
        else
          let t1 := t0 ++ [WfEvent.stepWrite Step.swap_proof,
            WfEvent.quoteCall Step.swap_proof]
          if ¬env.proofQuoteOk then
            (t1 ++ [WfEvent.markRetry "PROOF V3 quote failed"], WfOutcome.returned)
          else
            let t2 := t1 ++ [WfEvent.buildCall Step.swap_proof]
            if ¬env.proofBuildOk then
              (t2 ++ [WfEvent.markRetry "PROOF V3 swap tx failed"], WfOutcome.returned)
            else
              let t3 := t2 ++ [WfEvent.submitCall Step.swap_proof]
              if ¬env.proofSendOk then
                (t3 ++ [WfEvent.markRetry "PROOF swap send failed"], WfOutcome.returned)
              else
                let t4 := t3 ++ [WfEvent.sigWrite Step.swap_proof,
                  WfEvent.stepWrite Step.swap_trending,
                  WfEvent.quoteCall Step.swap_trending]
                if ¬env.trendingQuoteOk then
                  (t4 ++ [WfEvent.markRetry "Trending quote failed"], WfOutcome.returned)
                else
                  let t5 := t4 ++ [WfEvent.buildCall Step.swap_trending]
                  if ¬env.trendingBuildOk then
                    (t5 ++ [WfEvent.markRetry "Trending swap tx failed"],
                      WfOutcome.returned)
                  else
                    let t6 := t5 ++ [WfEvent.submitCall Step.swap_trending]
                    if ¬env.trendingSendOk then
                      (t6 ++ [WfEvent.markRetry "Trending swap send failed"],
                        WfOutcome.returned)
                    else
                      let t7 := t6 ++ [WfEvent.sigWrite Step.swap_trending]
                      if env.proofTokenBalance = 0 ∨ env.trendingTokenBalance = 0 then
                        (t7 ++ [WfEvent.markRetry "Insufficient token balances"],
                          WfOutcome.returned)
                      else
                        let t8 := t7 ++ [WfEvent.stepWrite Step.create_pool,
                          WfEvent.buildCall Step.create_pool]
                        if ¬env.atomicBuildOk then
                          (t8 ++ [WfEvent.markRetry "Atomic LP failed"],
                            WfOutcome.returned)
                        else
                          let t9 := t8 ++ [WfEvent.submitCall Step.create_pool]
                          if ¬env.atomicSubmitOk then
                            (t9 ++ [WfEvent.markRetry "Atomic tx failed"],
                              WfOutcome.returned)
                          else
                            (t9 ++ [WfEvent.completedWrite], WfOutcome.returned)

/-- One scheduler tick's processing of newly detected transfers
(`startMonitoring`, lines 575-594): the per-tick `try` surrounds the whole
`for` loop, so a thrown error skips the remaining transfers of the batch
(while the tick-level `catch` keeps the scheduler alive).  Returns the traces
of the transfers actually processed. -/
def runTick : List WorkflowEnv → List (List WfEvent)
  | [] => []
  | e :: rest =>
    match runWorkflow e with
    | (tr, WfOutcome.threw) => [tr]
    | (tr, WfOutcome.returned) => tr :: runTick rest

/-- `record.nextRetryAt && new Date(record.nextRetryAt) > new Date()`:
the in-loop dueness re-check of `processRetryQueue`. -/
def isDueNow (r : DbRec) (now : Int) : Bool :=
  match r.nextRetryAt with
  | some t => decide (t ≤ now)
  | none => true

/-- `processRetryQueue` (lines 520-553): for each fetched record, skip it if
its `nextRetryAt` is still in the future, otherwise re-run the full
`processIncomingTransaction`; the single `try` around the loop means a thrown
error skips the remaining records of the sweep. -/
def runRetryQueue (now : Int) : List (DbRec × WorkflowEnv) → List (List WfEvent)
  | [] => []
  | (r, e) :: rest =>
    if isDueNow r now then
      match runWorkflow e with
      | (tr, WfOutcome.threw) => [tr]
      | (tr, WfOutcome.returned) => tr :: runRetryQueue now rest
    else runRetryQueue now rest

/-- The `currentStep` values written by a trace, in order. -/
def stepWrites (tr : List WfEvent) : List Step :=
  tr.filterMap fun e =>
    match e with
    | WfEvent.stepWrite s => some s
    | _ => none

/-- Replay a trace's ledger updates onto a record (`updateProcessedIncoming`
writes and `markForRetry`), starting from the freshly inserted row. -/
def applyEvent (now : Int) (r : DbRec) : WfEvent → DbRec
  | WfEvent.stepWrite s => { r with currentStep := s }
  | WfEvent.completedWrite =>
      { r with status := Status.completed, completedAt := some now }
  | WfEvent.markRetry e => markForRetry r now e
  | _ => r

/-- The record state after one `processIncomingTransaction` run. -/
def recordAfter (env : WorkflowEnv) (now : Int) : DbRec :=
  (runWorkflow env).1.foldl (applyEvent now) freshRec

/-- An environment in which every external call succeeds and the opening
insert lands (a fresh transfer, pool not yet existing, ample balance). -/
def allSuccessEnv : WorkflowEnv :=
  { walletAvailable := true
    insertOutcome := InsertOutcome.ok
    trendingToken := some ⟨"TrendMint1111111111111111111111111111111111", "TREND"⟩
    poolExists := false
    solBalance := 100000000
    proofQuoteOk := true
    proofBuildOk := true
    proofSendOk := true
    trendingQuoteOk := true
    trendingBuildOk := true
    trendingSendOk := true
    proofTokenBalance := 5
    trendingTokenBalance := 7
    atomicBuildOk := true
    atomicSubmitOk := true }

/-- `allSuccessEnv` with the opening insert rejected by the unique-signature
constraint: the environment of any retried record while the store is
reachable. -/
def dupInsertEnv : WorkflowEnv :=
  { allSuccessEnv with insertOutcome := InsertOutcome.dupThrow }

/-- A persisted record that failed at the second swap step and is due for
retry. -/
def recAtTrending : DbRec :=
  { incomingSignature := "sigR"
    senderAddress := "S"
    amountLamports := 50000000
    retryCount := 1
    status := Status.processing
    errorMessage := some "Trending quote failed"
    lastRetryAt := none
    nextRetryAt := none
    completedAt := none
    createdAt := 0
    currentStep := Step.swap_trending }

/-- Per-process ledger lifetime of one record, as the sequence of
`currentStep` values actually persisted.  `getDb` caches a lazily constructed
handle, so store availability is constant for a process: when the store is
down (`dbUp = false`) every ledger write is skipped and nothing is persisted;
when it is up, the first run's writes persist and every later resume of the
same record re-runs `processIncomingTransaction`, whose opening re-insert is
rejected by the unique `incomingSignature` constraint (`dupThrow`) before
any step executes. -/
def lifetimeStepWrites (dbUp : Bool) (e0 : WorkflowEnv) (rs : List WorkflowEnv) :
    List Step :=
  if dbUp then
    stepWrites (runWorkflow { e0 with insertOutcome := InsertOutcome.ok }).1 ++
      (rs.map fun e =>
        stepWrites (runWorkflow { e with insertOutcome := InsertOutcome.dupThrow }).1).flatten
  else []

/-- The fifteen possible results of a `processIncomingTransaction` run: one
per early return, failure point, or the full success path. -/
def wfLeaves : List (List WfEvent × WfOutcome) :=
  [([], WfOutcome.returned),
   ([WfEvent.insertAttempt], WfOutcome.threw),
   ([WfEvent.insertAttempt] ++
      [WfEvent.markRetry "No trending token available from Birdeye"], WfOutcome.returned),
   ([WfEvent.insertAttempt] ++
      [WfEvent.markRetry "Trending token is same as PROOF V3"], WfOutcome.returned),
   ([WfEvent.insertAttempt] ++
      [WfEvent.markRetry "Insufficient SOL for swaps"], WfOutcome.returned),
   ([WfEvent.insertAttempt] ++
      [WfEvent.stepWrite Step.swap_proof, WfEvent.quoteCall Step.swap_proof] ++
      [WfEvent.markRetry "PROOF V3 quote failed"], WfOutcome.returned),
   ([WfEvent.insertAttempt] ++
      [WfEvent.stepWrite Step.swap_proof, WfEvent.quoteCall Step.swap_proof] ++
      [WfEvent.buildCall Step.swap_proof] ++
      [WfEvent.markRetry "PROOF V3 swap tx failed"], WfOutcome.returned),
   ([WfEvent.insertAttempt] ++
      [WfEvent.stepWrite Step.swap_proof, WfEvent.quoteCall Step.swap_proof] ++
      [WfEvent.buildCall Step.swap_proof] ++ [WfEvent.submitCall Step.swap_proof] ++
      [WfEvent.markRetry "PROOF swap send failed"], WfOutcome.returned),
   ([WfEvent.insertAttempt] ++
      [WfEvent.stepWrite Step.swap_proof, WfEvent.quoteCall Step.swap_proof] ++
      [WfEvent.buildCall Step.swap_proof] ++ [WfEvent.submitCall Step.swap_proof] ++
      [WfEvent.sigWrite Step.swap_proof, WfEvent.stepWrite Step.swap_trending,
        WfEvent.quoteCall Step.swap_trending] ++
      [WfEvent.markRetry "Trending quote failed"], WfOutcome.returned),
   ([WfEvent.insertAttempt] ++
      [WfEvent.stepWrite Step.swap_proof, WfEvent.quoteCall Step.swap_proof] ++
      [WfEvent.buildCall Step.swap_proof] ++ [WfEvent.submitCall Step.swap_proof] ++
      [WfEvent.sigWrite Step.swap_proof, WfEvent.stepWrite Step.swap_trending,
        WfEvent.quoteCall Step.swap_trending] ++
      [WfEvent.buildCall Step.swap_trending] ++
      [WfEvent.markRetry "Trending swap tx failed"], WfOutcome.returned),
   ([WfEvent.insertAttempt] ++
      [WfEvent.stepWrite Step.swap_proof, WfEvent.quoteCall Step.swap_proof] ++
      [WfEvent.buildCall Step.swap_proof] ++ [WfEvent.submitCall Step.swap_proof] ++
      [WfEvent.sigWrite Step.swap_proof, WfEvent.stepWrite Step.swap_trending,
        WfEvent.quoteCall Step.swap_trending] ++
      [WfEvent.buildCall Step.swap_trending] ++ [WfEvent.submitCall Step.swap_trending] ++
      [WfEvent.markRetry "Trending swap send failed"], WfOutcome.returned),
   ([WfEvent.insertAttempt] ++
      [WfEvent.stepWrite Step.swap_proof, WfEvent.quoteCall Step.swap_proof] ++
      [WfEvent.buildCall Step.swap_proof] ++ [WfEvent.submitCall Step.swap_proof] ++
      [WfEvent.sigWrite Step.swap_proof, WfEvent.stepWrite Step.swap_trending,
        WfEvent.quoteCall Step.swap_trending] ++
      [WfEvent.buildCall Step.swap_trending] ++ [WfEvent.submitCall Step.swap_trending] ++
      [WfEvent.sigWrite Step.swap_trending] ++
      [WfEvent.markRetry "Insufficient token balances"], WfOutcome.returned),
   ([WfEvent.insertAttempt] ++
      [WfEvent.stepWrite Step.swap_proof, WfEvent.quoteCall Step.swap_proof] ++
      [WfEvent.buildCall Step.swap_proof] ++ [WfEvent.submitCall Step.swap_proof] ++
      [WfEvent.sigWrite Step.swap_proof, WfEvent.stepWrite Step.swap_trending,
        WfEvent.quoteCall Step.swap_trending] ++
      [WfEvent.buildCall Step.swap_trending] ++ [WfEvent.submitCall Step.swap_trending] ++
      [WfEvent.sigWrite Step.swap_trending] ++
      [WfEvent.stepWrite Step.create_pool, WfEvent.buildCall Step.create_pool] ++
      [WfEvent.markRetry "Atomic LP failed"], WfOutcome.returned),
   ([WfEvent.insertAttempt] ++
      [WfEvent.stepWrite Step.swap_proof, WfEvent.quoteCall Step.swap_proof] ++
      [WfEvent.buildCall Step.swap_proof] ++ [WfEvent.submitCall Step.swap_proof] ++
      [WfEvent.sigWrite Step.swap_proof, WfEvent.stepWrite Step.swap_trending,
        WfEvent.quoteCall Step.swap_trending] ++
      [WfEvent.buildCall Step.swap_trending] ++ [WfEvent.submitCall Step.swap_trending] ++
      [WfEvent.sigWrite Step.swap_trending] ++
      [WfEvent.stepWrite Step.create_pool, WfEvent.buildCall Step.create_pool] ++
      [WfEvent.submitCall Step.create_pool] ++
      [WfEvent.markRetry "Atomic tx failed"], WfOutcome.returned),
   ([WfEvent.insertAttempt] ++
      [WfEvent.stepWrite Step.swap_proof, WfEvent.quoteCall Step.swap_proof] ++
      [WfEvent.buildCall Step.swap_proof] ++ [WfEvent.submitCall Step.swap_proof] ++
      [WfEvent.sigWrite Step.swap_proof, WfEvent.stepWrite Step.swap_trending,
        WfEvent.quoteCall Step.swap_trending] ++
      [WfEvent.buildCall Step.swap_trending] ++ [WfEvent.submitCall Step.swap_trending] ++
      [WfEvent.sigWrite Step.swap_trending] ++
      [WfEvent.stepWrite Step.create_pool, WfEvent.buildCall Step.create_pool] ++
      [WfEvent.submitCall Step.create_pool] ++
      [WfEvent.completedWrite], WfOutcome.returned)]

theorem retryDelay_mono (n : Nat) : retryDelay n ≤ retryDelay (n + 1) := by
  unfold retryDelay
  apply min_le_min _ le_rfl
  push_cast
  omega

theorem retryDelay_capped (n : Nat) : retryDelay n ≤ 300000 :=
  min_le_right _ _

/-- C4: every `markForRetry` call on an existing record increments
`retryCount` by exactly one, persists the error text, sets
`nextRetryAt = now + min(newRetryCount * 60000, 300000)` (so successive calls
produce non-decreasing deltas capped at 300000 ms), and sets status to
terminal `failed` exactly when the incremented counter has reached the ceiling
5, otherwise to the retry-pending state `processing`; starting from a fresh
record the flip to `failed` happens on the 5th failure, not the 4th. -/
theorem markForRetry_contract (r : DbRec) (now : Int) (err : String) :
    (markForRetry r now err).retryCount = r.retryCount + 1 ∧
    (markForRetry r now err).errorMessage = some err ∧
    (markForRetry r now err).nextRetryAt =
      some (now + retryDelay (r.retryCount + 1)) ∧
    retryDelay (r.retryCount + 1) ≤ retryDelay (r.retryCount + 2) ∧
    retryDelay (r.retryCount + 1) ≤ 300000 ∧
    (markForRetry r now err).status =
      (if 5 ≤ r.retryCount + 1 then Status.failed else Status.processing) ∧
    (iterRetry 4).status = Status.processing ∧
    (iterRetry 5).status = Status.failed := by
  refine ⟨rfl, rfl, rfl, retryDelay_mono _, retryDelay_capped _, rfl, ?_, ?_⟩
  · decide
  · decide

/-! ## Network submitter (`src/src/nonce.ts`) -/

theorem backoffStep_finished_attempts (mx : ℚ) (o : SendOutcome) (st : BackoffState)
    (r : BackoffResult) (h : backoffStep mx o st = StepRes.finished r) :
    r.attempts = st.attempts := by
  cases o with
  | sent sig ps =>
    cases ps <;> simp only [backoffStep] at h <;> (try split_ifs at h) <;>
      first
        | (injection h with h; subst h; rfl)
        | simp at h
  | threw msg pl =>
    simp only [backoffStep] at h
    split_ifs at h <;>
      first
        | (injection h with h; subst h; rfl)
        | simp at h

theorem backoffStep_again_state (mx : ℚ) (o : SendOutcome) (st : BackoffState)
    (st2 : BackoffState) (h : backoffStep mx o st = StepRes.again st2) :
    st2.attempts = st.attempts ∧ st2.delay = min (st.delay * (3 / 2)) mx := by
  cases o with
  | sent sig ps =>
    cases ps <;> simp only [backoffStep] at h <;> (try split_ifs at h) <;>
      first
        | (injection h with h; subst h; exact ⟨rfl, rfl⟩)
        | simp at h
  | threw msg pl =>
    simp only [backoffStep] at h
    split_ifs at h <;>
      first
        | (injection h with h; subst h; exact ⟨rfl, rfl⟩)
        | simp at h

theorem backoffRun_attempts_le (mr : Nat) (mx : ℚ) :
    ∀ (outs : List SendOutcome) (st : BackoffState), st.attempts ≤ mr →
      (backoffRun mr mx outs st).1.attempts ≤ mr := by
  intro outs
  induction outs with
  | nil => intro st h; simpa [backoffRun, exhaustResult] using h
  | cons o rest ih =>
    intro st h
    simp only [backoffRun]
    split
    · simpa [exhaustResult] using h
    · rename_i hg
      rcases hstep : backoffStep mx o { st with attempts := st.attempts + 1 } with r | st2
      · have ha := backoffStep_finished_attempts mx o _ r hstep
        simp only [hstep]
        simp only [BackoffState.attempts] at ha
        omega
      · have ha := (backoffStep_again_state mx o _ st2 hstep).1
        simp only [hstep]
        apply ih
        simp only [BackoffState.attempts] at ha
        omega

theorem delaySeq_shift (mx d : ℚ) (n : Nat) :
    delaySeq mx (min (d * (3 / 2)) mx) n = delaySeq mx d (n + 1) := by
  induction n with
  | zero => rfl
  | succ n ih => simp only [delaySeq, ih]

theorem backoffRun_sleeps (mr : Nat) (mx : ℚ) :
    ∀ (outs : List SendOutcome) (st : BackoffState),
      ∃ k, (backoffRun mr mx outs st).2 = (List.range k).map (delaySeq mx st.delay) := by
  intro outs
  induction outs with
  | nil => intro st; exact ⟨0, rfl⟩
  | cons o rest ih =>
    intro st
    simp only [backoffRun]
    split
    · exact ⟨0, rfl⟩
    · rcases hstep : backoffStep mx o { st with attempts := st.attempts + 1 } with r | st2
      · exact ⟨0, rfl⟩
      · rcases ih st2 with ⟨k, hk⟩
        refine ⟨k + 1, ?_⟩
        have hd := (backoffStep_again_state mx o _ st2 hstep).2
        simp only [BackoffState.delay] at hd
        have hfun : delaySeq mx (min (st.delay * (3 / 2)) mx) =
            fun n => delaySeq mx st.delay (n + 1) := funext (delaySeq_shift mx st.delay)
        simp only [hstep, hk, hd, hfun]
        simp [List.range_succ_eq_map, List.map_map, Function.comp_def, delaySeq]

theorem delaySeq_bounds (mx d0 : ℚ) (h0 : 0 ≤ d0) (h1 : d0 ≤ mx) (n : Nat) :
    0 ≤ delaySeq mx d0 n ∧ delaySeq mx d0 n ≤ mx := by
  induction n with
  | zero => exact ⟨h0, h1⟩
  | succ n ih =>
    refine ⟨le_min ?_ (le_trans h0 h1), min_le_right _ _⟩
    nlinarith [ih.1]

theorem delaySeq_mono (mx d0 : ℚ) (h0 : 0 ≤ d0) (h1 : d0 ≤ mx) (n : Nat) :
    delaySeq mx d0 n ≤ delaySeq mx d0 (n + 1) := by
  have hb := delaySeq_bounds mx d0 h0 h1 n
  show delaySeq mx d0 n ≤ min (delaySeq mx d0 n * (3 / 2)) mx
  refine le_min ?_ hb.2
  nlinarith [hb.1]

/-- C8: the single-payload submitter waits `delay' = min(delay * 1.5, maxDelay)`
between inconclusive attempts starting from the initial delay (the sleep list
is an initial segment of the canonical recurrence, hence non-decreasing and
capped by the maximum delay when the initial delay is within bounds), and the
returned `attempts` count never exceeds `maxRetries`. -/
theorem submitWithExponentialBackoff_backoff (outs : List SendOutcome)
    (mr : Nat) (d0 mx : ℚ) (h0 : 0 ≤ d0) (h1 : d0 ≤ mx) :
    (submitWithExponentialBackoff outs mr d0 mx).1.attempts ≤ mr ∧
    (∃ k, (submitWithExponentialBackoff outs mr d0 mx).2 =
      (List.range k).map (delaySeq mx d0)) ∧
    List.Chain' (· ≤ ·) (submitWithExponentialBackoff outs mr d0 mx).2 ∧
    (∀ x ∈ (submitWithExponentialBackoff outs mr d0 mx).2, x ≤ mx) := by
  have hk := backoffRun_sleeps mr mx outs ⟨d0, 0, none, none⟩
  rcases hk with ⟨k, hk⟩
  refine ⟨backoffRun_attempts_le mr mx outs _ (Nat.zero_le mr), ⟨k, hk⟩, ?_, ?_⟩
  · rw [submitWithExponentialBackoff, hk]
    rw [List.chain'_map]
    cases k with
    | zero => simp
    | succ k =>
      rw [List.chain'_range_succ]
      intro m _
      exact delaySeq_mono mx d0 h0 h1 m
  · intro x hx
    rw [submitWithExponentialBackoff, hk] at hx
    rcases List.mem_map.1 hx with ⟨n, _, rfl⟩
    exact (delaySeq_bounds mx d0 h0 h1 n).2

/-- Witness for C8 at a concrete run: two inconclusive attempts then a
confirmation, with the source's default parameters. -/
theorem submitWithExponentialBackoff_backoff_witness :
    (submitWithExponentialBackoff
        [SendOutcome.sent "s1" PollStatus.nullValue,
         SendOutcome.sent "s1" PollStatus.pendingOk,
         SendOutcome.sent "s1" PollStatus.confirmedOk] 20 500 30000).1.attempts ≤ 20 ∧
    (∃ k, (submitWithExponentialBackoff
        [SendOutcome.sent "s1" PollStatus.nullValue,
         SendOutcome.sent "s1" PollStatus.pendingOk,
         SendOutcome.sent "s1" PollStatus.confirmedOk] 20 500 30000).2 =
      (List.range k).map (delaySeq 30000 500)) ∧
    List.Chain' (· ≤ ·) (submitWithExponentialBackoff
        [SendOutcome.sent "s1" PollStatus.nullValue,
         SendOutcome.sent "s1" PollStatus.pendingOk,
         SendOutcome.sent "s1" PollStatus.confirmedOk] 20 500 30000).2 ∧
    (∀ x ∈ (submitWithExponentialBackoff
        [SendOutcome.sent "s1" PollStatus.nullValue,
         SendOutcome.sent "s1" PollStatus.pendingOk,
         SendOutcome.sent "s1" PollStatus.confirmedOk] 20 500 30000).2, x ≤ 30000) :=
  submitWithExponentialBackoff_backoff _ 20 500 30000 (by norm_num) (by norm_num)

/-- C7: outcome classification of the single-payload submitter.  First: when
the polled status shows a permanent on-chain rejection (error text containing
`insufficient` or `already processed` after lowercasing) the loop returns
failure at once — the result is independent of any remaining attempts, no
backoff sleep is performed and the attempt count stops at the current attempt.
Second: when the send call throws an already-processed error, the loop polls
the previously returned signature and returns success when that poll shows a
present status without error. -/
theorem submitWithExponentialBackoff_classification :
    (∀ (sig e : String) (rest : List SendOutcome) (mr : Nat) (mx : ℚ) (st : BackoffState),
      st.attempts < mr →
      (strContains (strLower e) "insufficient" ||
        strContains (strLower e) "already processed") = true →
      backoffRun mr mx (SendOutcome.sent sig (PollStatus.errStatus e) :: rest) st =
        (⟨false, some sig, some e, st.attempts + 1⟩, [])) ∧
    (∀ (msg sig : String) (ps : PollStatus) (rest : List SendOutcome) (mr : Nat) (mx : ℚ)
        (st : BackoffState),
      st.attempts < mr →
      (strContains msg "Blockhash not found" ||
        strContains msg "block height exceeded") = false →
      (strContains msg "AlreadyProcessed" ||
        strContains msg "already been processed") = true →
      st.lastSignature = some sig →
      (ps = PollStatus.confirmedOk ∨ ps = PollStatus.pendingOk) →
      backoffRun mr mx (SendOutcome.threw msg ps :: rest) st =
        (⟨true, some sig, none, st.attempts + 1⟩, [])) := by
  constructor
  · intro sig e rest mr mx st hlt hperm
    simp only [backoffRun]
    rw [if_neg (by omega)]
    simp [backoffStep, hperm]
  · intro msg sig ps rest mr mx st hlt hbh hap hsig hps
    simp only [backoffRun]
    rw [if_neg (by omega)]
    rcases hps with rfl | rfl <;> simp [backoffStep, hbh, hap, hsig]

/-- Witness for C7: an `InsufficientFundsForRent` on-chain rejection fails on
attempt 1 with no retries, and a thrown already-processed error on attempt 2
resolves to success via the attempt-1 signature. -/
theorem submitWithExponentialBackoff_classification_witness :
    backoffRun 20 30000
        [SendOutcome.sent "sigA" (PollStatus.errStatus "InsufficientFundsForRent")]
        ⟨500, 0, none, none⟩ =
      (⟨false, some "sigA", some "InsufficientFundsForRent", 1⟩, []) ∧
    backoffRun 20 30000
        [SendOutcome.threw
          "Transaction simulation failed: This transaction has already been processed"
          PollStatus.confirmedOk]
        ⟨500, 1, some "sigB", none⟩ =
      (⟨true, some "sigB", none, 2⟩, []) :=
  ⟨submitWithExponentialBackoff_classification.1 "sigA" "InsufficientFundsForRent"
      [] 20 30000 ⟨500, 0, none, none⟩ (by norm_num) (by decide),
    submitWithExponentialBackoff_classification.2
      "Transaction simulation failed: This transaction has already been processed"
      "sigB" PollStatus.confirmedOk [] 20 30000 ⟨500, 1, some "sigB", none⟩
      (by norm_num) (by decide) (by decide) rfl (Or.inl rfl)⟩

theorem seqGo_append_good :
    ∀ (good : List BackoffResult),
      (∀ r ∈ good, (r.success && r.signature.isSome) = true) →
      ∀ (rest : List BackoffResult) (i : Nat) (acc : List String),
        seqGo (good ++ rest) i acc =
          seqGo rest (i + good.length) ((good.map sigOf).reverse ++ acc) := by
  intro good
  induction good with
  | nil => intro _ rest i acc; simp
  | cons g gs ih =>
    intro hg rest i acc
    have hgood := hg g (List.mem_cons_self g gs)
    simp only [List.cons_append, seqGo, hgood, if_true]
    rw [List.append_eq]
    rw [ih (fun r hr => hg r (List.mem_cons_of_mem g hr)) rest (i + 1)
      (g.signature.getD "" :: acc)]
    have hlen : i + 1 + gs.length = i + (g :: gs).length := by
      simp [List.length_cons]; omega
    have hacc : (gs.map sigOf).reverse ++ (g.signature.getD "" :: acc) =
        ((g :: gs).map sigOf).reverse ++ acc := by
      simp [sigOf]
    rw [hlen, hacc]

/-- C6: the sequential submitter hands payloads to the per-payload submitter
strictly in order.  If every payload before position `k` confirms and payload
`k` fails, exactly the first `k + 1` payloads are submitted (none after the
failure), the reported 0-based `failedIndex` is `k`, and the confirmed
signatures are exactly those of the first `k` payloads in order; if every
payload confirms, all are submitted in order with `failedIndex = none`. -/
theorem submitSequentialTransactions_contract :
    (∀ (good : List BackoffResult) (bad : BackoffResult) (rest : List BackoffResult),
      (∀ r ∈ good, (r.success && r.signature.isSome) = true) →
      (bad.success && bad.signature.isSome) = false →
      (submitSequentialTransactions (good ++ bad :: rest)).1.success = false ∧
      (submitSequentialTransactions (good ++ bad :: rest)).1.failedIndex = some good.length ∧
      (submitSequentialTransactions (good ++ bad :: rest)).1.signatures = good.map sigOf ∧
      (submitSequentialTransactions (good ++ bad :: rest)).2 = good.length + 1) ∧
    (∀ (results : List BackoffResult),
      (∀ r ∈ results, (r.success && r.signature.isSome) = true) →
      (submitSequentialTransactions results).1.success = true ∧
      (submitSequentialTransactions results).1.failedIndex = none ∧
      (submitSequentialTransactions results).1.signatures = results.map sigOf ∧
      (submitSequentialTransactions results).2 = results.length) := by
  constructor
  · intro good bad rest hg hbad
    unfold submitSequentialTransactions
    rw [seqGo_append_good good hg (bad :: rest) 0 []]
    simp [seqGo, hbad]
  · intro results hg
    unfold submitSequentialTransactions
    have h := seqGo_append_good results hg [] 0 []
    rw [List.append_nil] at h
    rw [h]
    simp [seqGo]

/-- Witness for C6: a 3-payload sequence whose 2nd payload permanently fails
reports `failedIndex = 1`, exactly one confirmed signature, and only the
first two payloads were submitted. -/
theorem submitSequentialTransactions_contract_witness :
    (submitSequentialTransactions
        [⟨true, some "s0", none, 1⟩, ⟨false, some "sB", some "boom", 20⟩,
          ⟨true, some "s2", none, 1⟩]).1.success = false ∧
    (submitSequentialTransactions
        [⟨true, some "s0", none, 1⟩, ⟨false, some "sB", some "boom", 20⟩,
          ⟨true, some "s2", none, 1⟩]).1.failedIndex = some 1 ∧
    (submitSequentialTransactions
        [⟨true, some "s0", none, 1⟩, ⟨false, some "sB", some "boom", 20⟩,
          ⟨true, some "s2", none, 1⟩]).1.signatures = ["s0"] ∧
    (submitSequentialTransactions
        [⟨true, some "s0", none, 1⟩, ⟨false, some "sB", some "boom", 20⟩,
          ⟨true, some "s2", none, 1⟩]).2 = 2 := by
  have h := submitSequentialTransactions_contract.1
    [⟨true, some "s0", none, 1⟩] ⟨false, some "sB", some "boom", 20⟩
    [⟨true, some "s2", none, 1⟩] (by intro r hr; simp at hr; subst hr; rfl) (by rfl)
  simpa [sigOf] using h

/-! ## Inbound monitor (`src/src/auto-trader.ts` lines 140-229) and ledger
queries (`src/src/db.ts`) -/

/-- C9: for a fetched transaction that is not yet known (neither in the
in-memory set nor in the store) and in which the watched wallet occurs, the
monitor emits a transfer exactly when the wallet's balance delta is at least
`MIN_SOL_LAMPORTS` and a counterparty with a nonempty key exists; when it
emits, the transfer carries that delta and counterparty and the signature is
marked seen, and when the delta is below the threshold nothing is emitted but
the signature is still marked seen. -/
theorem processSig_threshold (wallet : String) (db : String → Bool)
    (seen : List String) (ft : FetchedTx) (m : TxMeta) (j : Nat)
    (h1 : seen.contains ft.info.signature = false)
    (h2 : db ft.info.signature = false)
    (h3 : ft.meta = some m)
    (h4 : m.accountKeys.length ≠ 0)
    (h5 : m.accountKeys.findIdx? (fun k => k == wallet) = some j) :
    ((processSig wallet db seen ft).1.isSome = true ↔
      (MIN_SOL_LAMPORTS ≤ balanceDelta m j ∧ monitorSender m j ≠ "")) ∧
    (MIN_SOL_LAMPORTS ≤ balanceDelta m j → monitorSender m j ≠ "" →
      processSig wallet db seen ft =
        (some ⟨ft.info.signature, monitorSender m j, balanceDelta m j,
            ft.info.slot, ft.info.blockTime.getD 0⟩,
          ft.info.signature :: seen)) ∧
    (balanceDelta m j < MIN_SOL_LAMPORTS →
      processSig wallet db seen ft = (none, ft.info.signature :: seen)) := by
  obtain ⟨info, mo⟩ := ft
  simp only [FetchedTx.meta] at h3
  subst h3
  simp only [FetchedTx.info] at h1 h2 ⊢
  unfold processSig
  simp only [FetchedTx.info, FetchedTx.meta, h1, h2, Bool.false_eq_true, if_false,
    if_neg h4, h5]
  constructor
  · constructor
    · intro hsome
      by_cases hth : MIN_SOL_LAMPORTS ≤ balanceDelta m j
      · by_cases hs : monitorSender m j ≠ ""
        · exact ⟨hth, hs⟩
        · simp [hth, hs] at hsome
      · simp [hth] at hsome
    · rintro ⟨hth, hs⟩
      simp [hth, hs]
  · constructor
    · intro hth hs
      simp [hth, hs]
    · intro hth
      rw [if_neg (by omega)]

/-- Witness for C9: a transfer of exactly the threshold (0.01 SOL) is
emitted with the first debited account as sender; one lamport below the
threshold nothing is emitted and the signature is marked seen. -/
theorem processSig_threshold_witness :
    processSig "W" (fun _ => false) []
        ⟨⟨"sigEq", 7, some 99⟩,
          some ⟨[20000000, 0], [10000000, 10000000], ["S", "W"]⟩⟩ =
      (some ⟨"sigEq", "S", 10000000, 7, 99⟩, ["sigEq"]) ∧
    processSig "W" (fun _ => false) []
        ⟨⟨"sigLow", 7, some 99⟩,
          some ⟨[20000000, 0], [10000001, 9999999], ["S", "W"]⟩⟩ =
      (none, ["sigLow"]) := by
  constructor
  · have h := (processSig_threshold "W" (fun _ => false) []
      ⟨⟨"sigEq", 7, some 99⟩,
        some ⟨[20000000, 0], [10000000, 10000000], ["S", "W"]⟩⟩
      ⟨[20000000, 0], [10000000, 10000000], ["S", "W"]⟩ 1
      rfl rfl rfl (by decide) (by decide)).2.1 (by decide) (by decide)
    simpa [monitorSender, balanceDelta] using h
  · have h := (processSig_threshold "W" (fun _ => false) []
      ⟨⟨"sigLow", 7, some 99⟩,
        some ⟨[20000000, 0], [10000001, 9999999], ["S", "W"]⟩⟩
      ⟨[20000000, 0], [10000001, 9999999], ["S", "W"]⟩ 1
      rfl rfl rfl (by decide) (by decide)).2.2 (by decide)
    simpa using h

/-- C10: with the database handle unavailable, the duplicate check answers
`false` for every signature and the retry query answers the empty list; as a
consequence, after a restart (fresh, empty in-memory set) a previously
processed qualifying transfer is emitted to the workflow again. -/
theorem db_unavailable_consequences :
    (∀ sig : String, isTransactionProcessed none sig = false) ∧
    (∀ (now : Int) (lim : Nat), getTransactionsForRetry none now lim = []) ∧
    (isTransactionProcessed (some ["sigOld"]) "sigOld" = true ∧
      processSig "W" (fun s => isTransactionProcessed none s) []
          ⟨⟨"sigOld", 7, some 99⟩,
            some ⟨[20000000, 0], [0, 20000000], ["S", "W"]⟩⟩ =
        (some ⟨"sigOld", "S", 20000000, 7, 99⟩, ["sigOld"]) ∧
      (processSig "W" (fun s => isTransactionProcessed (some ["sigOld"]) s) []
          ⟨⟨"sigOld", 7, some 99⟩,
            some ⟨[20000000, 0], [0, 20000000], ["S", "W"]⟩⟩).1 = none) := by
  refine ⟨fun _ => rfl, fun _ _ => rfl, by decide, ?_, by decide⟩
  decide

/-! ## Workflow engine (`src/src/auto-trader.ts` `processIncomingTransaction`,
lines 235-430) and scheduler batches (lines 520-595) -/

theorem runTick_cons (e : WorkflowEnv) (rest : List WorkflowEnv) :
    runTick (e :: rest) =
      match runWorkflow e with
      | (tr, WfOutcome.threw) => [tr]
      | (tr, WfOutcome.returned) => tr :: runTick rest := rfl

theorem runRetryQueue_cons (now : Int) (r : DbRec) (e : WorkflowEnv)
    (rest : List (DbRec × WorkflowEnv)) :
    runRetryQueue now ((r, e) :: rest) =
      if isDueNow r now then
        match runWorkflow e with
        | (tr, WfOutcome.threw) => [tr]
        | (tr, WfOutcome.returned) => tr :: runRetryQueue now rest
      else runRetryQueue now rest := rfl

theorem runWorkflow_spec (e : WorkflowEnv) :
    runWorkflow e ∈ wfLeaves ∧
      ((runWorkflow e).2 = WfOutcome.threw →
        e.insertOutcome = InsertOutcome.dupThrow) := by
  unfold runWorkflow
  by_cases hw : ¬e.walletAvailable = true
  · rw [if_pos hw]; exact ⟨by decide, fun hh => absurd hh (by decide)⟩
  rw [if_neg hw]
  by_cases hio : e.insertOutcome = InsertOutcome.dupThrow
  · rw [if_pos hio]; exact ⟨by decide, fun _ => hio⟩
  rw [if_neg hio]
  rcases htt : e.trendingToken with _ | tok
  · simp only [htt]; exact ⟨by decide, fun hh => absurd hh (by decide)⟩
  simp only [htt]
  by_cases ha : tok.address = PROOF_V3_MINT
  · rw [if_pos ha]; exact ⟨by decide, fun hh => absurd hh (by decide)⟩
  rw [if_neg ha]
  by_cases hs : e.solBalance - (if e.poolExists = true then 0 else 30000000) - 5000000 <
      1000000
  · rw [if_pos hs]; exact ⟨by decide, fun hh => absurd hh (by decide)⟩
  rw [if_neg hs]
  by_cases h1 : ¬e.proofQuoteOk = true
  · rw [if_pos h1]; exact ⟨by decide, fun hh => absurd hh (by decide)⟩
  rw [if_neg h1]
  by_cases h2 : ¬e.proofBuildOk = true
  · rw [if_pos h2]; exact ⟨by decide, fun hh => absurd hh (by decide)⟩
  rw [if_neg h2]
  by_cases h3 : ¬e.proofSendOk = true
  · rw [if_pos h3]; exact ⟨by decide, fun hh => absurd hh (by decide)⟩
  rw [if_neg h3]
  by_cases h4 : ¬e.trendingQuoteOk = true
  · rw [if_pos h4]; exact ⟨by decide, fun hh => absurd hh (by decide)⟩
  rw [if_neg h4]
  by_cases h5 : ¬e.trendingBuildOk = true
  · rw [if_pos h5]; exact ⟨by decide, fun hh => absurd hh (by decide)⟩
  rw [if_neg h5]
  by_cases h6 : ¬e.trendingSendOk = true
  · rw [if_pos h6]; exact ⟨by decide, fun hh => absurd hh (by decide)⟩
  rw [if_neg h6]
  by_cases h7 : e.proofTokenBalance = 0 ∨ e.trendingTokenBalance = 0
  · rw [if_pos h7]; exact ⟨by decide, fun hh => absurd hh (by decide)⟩
  rw [if_neg h7]
  by_cases h8 : ¬e.atomicBuildOk = true
  · rw [if_pos h8]; exact ⟨by decide, fun hh => absurd hh (by decide)⟩
  rw [if_neg h8]
  by_cases h9 : ¬e.atomicSubmitOk = true
  · rw [if_pos h9]; exact ⟨by decide, fun hh => absurd hh (by decide)⟩
  rw [if_neg h9]; exact ⟨by decide, fun hh => absurd hh (by decide)⟩

theorem runWorkflow_mem (e : WorkflowEnv) : runWorkflow e ∈ wfLeaves :=
  (runWorkflow_spec e).1

theorem runWorkflow_returned (e : WorkflowEnv)
    (h : e.insertOutcome ≠ InsertOutcome.dupThrow) :
    (runWorkflow e).2 = WfOutcome.returned := by
  cases hq : (runWorkflow e).2 with
  | returned => rfl
  | threw => exact absurd ((runWorkflow_spec e).2 hq) h

theorem stepWrites_run_prefix (e : WorkflowEnv) :
    stepWrites (runWorkflow e).1 <+:
      [Step.swap_proof, Step.swap_trending, Step.create_pool] := by
  have hall : ∀ p ∈ wfLeaves,
      stepWrites p.1 <+: [Step.swap_proof, Step.swap_trending, Step.create_pool] := by
    decide
  exact hall _ (runWorkflow_mem e)

theorem stepWrites_dupThrow (e : WorkflowEnv) :
    stepWrites (runWorkflow { e with insertOutcome := InsertOutcome.dupThrow }).1 = [] := by
  unfold runWorkflow
  by_cases hw :
      ¬({ e with insertOutcome := InsertOutcome.dupThrow } : WorkflowEnv).walletAvailable = true
  · rw [if_pos hw]; rfl
  · rw [if_neg hw, if_pos rfl]; rfl

/-- C1 counterexample: a record persisted at the second swap step
(`currentStep = swap_trending`) and due for retry is not resumed at that
step.  With the store reachable the resume dies at the duplicate re-insert,
so the persisted step's quote/build/submit calls are never invoked; and the
resumed control flow never consults `currentStep` at all — were the insert to
succeed, it would re-invoke the first swap step's build and submit calls. -/
theorem resume_ignores_currentStep_cx :
    recAtTrending.currentStep = Step.swap_trending ∧
    isDueNow recAtTrending 0 = true ∧
    runRetryQueue 0 [(recAtTrending, dupInsertEnv)] = [[WfEvent.insertAttempt]] ∧
    WfEvent.quoteCall Step.swap_trending ∉ (runWorkflow dupInsertEnv).1 ∧
    WfEvent.submitCall Step.swap_trending ∉ (runWorkflow dupInsertEnv).1 ∧
    WfEvent.buildCall Step.swap_proof ∈ (runWorkflow allSuccessEnv).1 ∧
    WfEvent.submitCall Step.swap_proof ∈ (runWorkflow allSuccessEnv).1 := by
  decide

/-- C1 amended: resuming a due record never consults its persisted
`currentStep` — the retry sweep re-runs the whole `processIncomingTransaction`
and its trace is the same for any two due records handed the same
environment; when the re-insert succeeds and the external calls succeed, the
resumed run starts at the first step (`swap_proof`), re-invoking its build and
submit calls. -/
theorem processRetryQueue_resume_behavior (r r' : DbRec) (e : WorkflowEnv)
    (now : Int) (h : isDueNow r now = true) (h' : isDueNow r' now = true) :
    runRetryQueue now [(r, e)] = runRetryQueue now [(r', e)] ∧
    WfEvent.stepWrite Step.swap_proof ∈ (runWorkflow allSuccessEnv).1 ∧
    WfEvent.buildCall Step.swap_proof ∈ (runWorkflow allSuccessEnv).1 ∧
    WfEvent.submitCall Step.swap_proof ∈ (runWorkflow allSuccessEnv).1 := by
  have h1 : runRetryQueue now [(r, e)] = runRetryQueue now [(r', e)] := by
    simp only [runRetryQueue, h, h', if_true]
  exact ⟨h1, by decide, by decide, by decide⟩

/-- Witness for the amended C1 at two concrete due records (one persisted at
`swap_trending`, one fresh). -/
theorem processRetryQueue_resume_behavior_witness :
    runRetryQueue 0 [(recAtTrending, allSuccessEnv)] =
      runRetryQueue 0 [(freshRec, allSuccessEnv)] ∧
    WfEvent.stepWrite Step.swap_proof ∈ (runWorkflow allSuccessEnv).1 ∧
    WfEvent.buildCall Step.swap_proof ∈ (runWorkflow allSuccessEnv).1 ∧
    WfEvent.submitCall Step.swap_proof ∈ (runWorkflow allSuccessEnv).1 :=
  processRetryQueue_resume_behavior recAtTrending freshRec allSuccessEnv 0
    (by decide) (by decide)

/-- C2 counterexample: a two-record batch in which the first record's
processing throws (the duplicate re-insert of a retried record) leaves the
second, due record of the same batch unprocessed — both in the retry sweep
and in the tick loop over newly detected transfers. -/
theorem batch_abort_cx :
    runRetryQueue 0
        [(recAtTrending, dupInsertEnv),
          ({ recAtTrending with incomingSignature := "sigR2" }, allSuccessEnv)] =
      [[WfEvent.insertAttempt]] ∧
    (runRetryQueue 0
        [(recAtTrending, dupInsertEnv),
          ({ recAtTrending with incomingSignature := "sigR2" }, allSuccessEnv)]).length = 1 ∧
    isDueNow { recAtTrending with incomingSignature := "sigR2" } 0 = true ∧
    runTick [dupInsertEnv, allSuccessEnv] = [[WfEvent.insertAttempt]] := by
  decide

/-- C2 amended: failures raised inside the per-transfer `try` block are
caught and converted to `markForRetry`, so when no transfer's opening insert
throws, every transfer of a tick batch is processed and every due record of a
retry sweep is processed, whatever the other call outcomes; only a throw from
the pre-`try` insert (duplicate key) aborts the remainder of the batch. -/
theorem perTransfer_containment :
    (∀ envs : List WorkflowEnv,
      (∀ e ∈ envs, e.insertOutcome ≠ InsertOutcome.dupThrow) →
      (runTick envs).length = envs.length) ∧
    (∀ (now : Int) (batch : List (DbRec × WorkflowEnv)),
      (∀ p ∈ batch, p.2.insertOutcome ≠ InsertOutcome.dupThrow) →
      (runRetryQueue now batch).length =
        (batch.filter fun p => isDueNow p.1 now).length) := by
  constructor
  · intro envs
    induction envs with
    | nil => intro _; rfl
    | cons e rest ih =>
      intro h
      have he := runWorkflow_returned e (h e (List.mem_cons_self e rest))
      rcases hrw : runWorkflow e with ⟨tr, out⟩
      have he2 : out = WfOutcome.returned := by rw [hrw] at he; exact he
      subst he2
      show (runTick (e :: rest)).length = rest.length + 1
      rw [runTick_cons, hrw]
      show (tr :: runTick rest).length = rest.length + 1
      rw [List.length_cons, ih (fun x hx => h x (List.mem_cons_of_mem e hx))]
  · intro now batch
    induction batch with
    | nil => intro _; rfl
    | cons p rest ih =>
      intro h
      have he := runWorkflow_returned p.2 (h p (List.mem_cons_self p rest))
      rcases p with ⟨r, e⟩
      rcases hrw : runWorkflow e with ⟨tr, out⟩
      have he2 : out = WfOutcome.returned := by rw [hrw] at he; exact he
      subst he2
      have hih := ih (fun x hx => h x (List.mem_cons_of_mem _ hx))
      by_cases hd : isDueNow r now = true
      · rw [runRetryQueue_cons, if_pos hd, hrw]
        show (tr :: runRetryQueue now rest).length = _
        rw [List.length_cons, hih, List.filter_cons]
        simp [hd]
      · rw [runRetryQueue_cons, if_neg hd, hih, List.filter_cons]
        have hd' : isDueNow r now = false := by
          rcases hb : isDueNow r now with _ | _
          · rfl
          · exact absurd hb hd
        simp [hd']

/-- Witness for the amended C2: a tick batch holding one fully successful and
one quote-failing transfer processes both; a retry sweep over one due and one
not-yet-due record with non-throwing inserts processes exactly the due one. -/
theorem perTransfer_containment_witness :
    (runTick [allSuccessEnv, { allSuccessEnv with trendingQuoteOk := false }]).length = 2 ∧
    (runRetryQueue 50
        [({ recAtTrending with nextRetryAt := some 10 }, allSuccessEnv),
          ({ recAtTrending with nextRetryAt := some 100 }, allSuccessEnv)]).length =
      ([({ recAtTrending with nextRetryAt := some 10 }, allSuccessEnv),
          ({ recAtTrending with nextRetryAt := some 100 }, allSuccessEnv)].filter
        fun p => isDueNow p.1 50).length := by
  constructor
  · exact perTransfer_containment.1
      [allSuccessEnv, { allSuccessEnv with trendingQuoteOk := false }] (by decide)
  · exact perTransfer_containment.2 50 _ (by decide)

/-- C3: the `currentStep` values persisted over a record's per-process
lifetime form an initial segment of `[swap_proof, swap_trending, create_pool]`
(every pair of writes is strictly increasing in the fixed step order, hence
the sequence is non-decreasing and never regresses).  Within the first
attempt the writes advance strictly; every later resume attempt is rejected
at the duplicate re-insert before any `currentStep` write, and with the store
down nothing is persisted at all. -/
theorem currentStep_writes_monotone (dbUp : Bool) (e0 : WorkflowEnv)
    (rs : List WorkflowEnv) :
    lifetimeStepWrites dbUp e0 rs <+:
      [Step.swap_proof, Step.swap_trending, Step.create_pool] ∧
    List.Pairwise (fun a b => stepIndex a < stepIndex b)
      (lifetimeStepWrites dbUp e0 rs) ∧
    List.Chain' (fun a b => stepIndex a ≤ stepIndex b)
      (lifetimeStepWrites dbUp e0 rs) := by
  have hjoin : (rs.map fun e =>
      stepWrites (runWorkflow { e with insertOutcome := InsertOutcome.dupThrow }).1).flatten =
      ([] : List Step) := by
    induction rs with
    | nil => rfl
    | cons e rest ih => simp [stepWrites_dupThrow, ih]
  have hwrites : lifetimeStepWrites dbUp e0 rs =
      if dbUp then
        stepWrites (runWorkflow { e0 with insertOutcome := InsertOutcome.ok }).1
      else [] := by
    unfold lifetimeStepWrites
    rw [hjoin, List.append_nil]
  rw [hwrites]
  cases dbUp with
  | false => exact ⟨List.nil_prefix, List.Pairwise.nil, List.chain'_nil⟩
  | true =>
    simp only [if_true]
    have hpre := stepWrites_run_prefix { e0 with insertOutcome := InsertOutcome.ok }
    have hfull : List.Pairwise (fun a b => stepIndex a < stepIndex b)
        [Step.swap_proof, Step.swap_trending, Step.create_pool] := by decide
    have hpw := hfull.sublist hpre.sublist
    exact ⟨hpre, hpw, hpw.chain'.imp fun a b hab => le_of_lt hab⟩

/-- C5 counterexample: a fully successful run sets `status = completed` and
`completedAt`, but leaves `currentStep` at `create_pool` — the terminal
update never writes the `done` marker. -/
theorem completed_currentStep_cx :
    (recordAfter allSuccessEnv 123).status = Status.completed ∧
    (recordAfter allSuccessEnv 123).completedAt = some 123 ∧
    (recordAfter allSuccessEnv 123).currentStep = Step.create_pool ∧
    Step.create_pool ≠ Step.done := by
  decide

/-- C5 amended: whenever a run's terminal update sets `status = completed`,
the same update sets `completedAt`, but `currentStep` is left at the last
step marker written before completion — `create_pool` — and the `done` marker
of the step enum is never written by any run. -/
theorem completed_record_shape (env : WorkflowEnv) (now : Int)
    (h : (recordAfter env now).status = Status.completed) :
    (recordAfter env now).completedAt = some now ∧
    (recordAfter env now).currentStep = Step.create_pool ∧
    WfEvent.stepWrite Step.done ∉ (runWorkflow env).1 := by
  have hmem := runWorkflow_mem env
  simp only [wfLeaves, List.mem_cons, List.not_mem_nil, or_false] at hmem
  unfold recordAfter at h ⊢
  rcases hmem with hc|hc|hc|hc|hc|hc|hc|hc|hc|hc|hc|hc|hc|hc|hc
  all_goals rw [hc] at h ⊢
  all_goals
    first
      | (refine ⟨?_, ?_, ?_⟩ <;> first | rfl | decide)
      | (exfalso;
          simp [List.foldl_cons, List.foldl_nil, applyEvent, markForRetry, freshRec,
            retryDelay] at h)

/-- Witness for the amended C5 at the all-success environment. -/
theorem completed_record_shape_witness :
    (recordAfter allSuccessEnv 123).completedAt = some 123 ∧
    (recordAfter allSuccessEnv 123).currentStep = Step.create_pool ∧
    WfEvent.stepWrite Step.done ∉ (runWorkflow allSuccessEnv).1 :=
  completed_record_shape allSuccessEnv 123 (by decide)


end LiqGobbler
